import Mathlib

/-!
# Verification of the JS185 Todo-App domain model and persistence contract

This file gives a shallow embedding, in Lean 4, of the todo-list / todo-item
domain model of the JS185 Todo application and of its PostgreSQL persistence
store, and proves (or refutes) the specification claims about them.

The embedding is translated from the JavaScript and SQL sources:

* `src/lib/todo.js`        — the `Todo` entity,
* `src/lib/typedefs.js`    — the `TodoList` entity (JS185 version),
* `src/lib/db-pool.js`     — the `TodoLists` collection,
* `src/lib/todo-pg-store.js` — the `TodoPGStore` persistence façade,
* `src/sql/schema.sql`     — the database schema (tables, constraints).

JavaScript peculiarities that matter are modelled explicitly:

* `String(value)` coercion is modelled by `jsString` over a small `JSVal`
  universe of JavaScript values.
* JavaScript numbers handed to index-validation are modelled as rationals
  (`ℚ`), so that `Number.isInteger` is observable (`Rat.den = 1`).
* `String.prototype.localeCompare` on lowercased strings is modelled as the
  three-valued comparison `localeCompare` induced by a linear order on
  strings; the claims proved about it depend only on it being induced by a
  linear order on the lowercased titles.
* `Array.prototype.sort` (a stable sort per ES2019) with comparator `cmp` is
  modelled as `List.insertionSort` with the relation `cmp a b ≤ 0`, which is
  the unique stable sort for a consistent comparator.
* Database statements are modelled as pure state transitions on a `DB` value;
  PostgreSQL constraint violations are modelled as `PGError` values raised by
  the statement semantics, mirroring `schema.sql`.
-/

namespace TodoApp

/-! ## JavaScript value model -/

/-- A small universe of JavaScript values, enough to observe the behavior of
the `String(value)` coercion used by `Todo.setTitle` / `TodoList.setTitle`. -/
inductive JSVal where
  | str (s : String)
  | num (n : Int)
  | boolean (b : Bool)
  | nullV
  | undef
deriving DecidableEq, Repr

/-- The JavaScript `String(value)` coercion, as used by `setTitle`. -/
def jsString : JSVal → String
  | .str s => s
  | .num n => toString n
  | .boolean b => cond b "true" "false"
  | .nullV => "null"
  | .undef => "undefined"

/-- JavaScript runtime errors thrown by the embedded code. -/
inductive JSError where
  | referenceError (msg : String)
  | typeError (msg : String)
deriving DecidableEq, Repr

/-- Model of `String.prototype.toLowerCase`: lowercase every character. -/
def jsToLower (s : String) : String := ⟨s.data.map Char.toLower⟩

/-- Three-valued lexicographic comparison of character lists. -/
def lexCompare : List Char → List Char → Int
  | [], [] => 0
  | [], _ :: _ => -1
  | _ :: _, [] => 1
  | a :: as, b :: bs =>
    if a < b then -1 else if b < a then 1 else lexCompare as bs

/-- Model of `String.prototype.localeCompare`: a three-valued comparison
returning `-1`, `0` or `1`, induced by a linear order on strings (the
properties proved about the `compare` methods depend only on this shape). -/
def localeCompare (a b : String) : Int :=
  lexCompare a.data b.data

/-! ## The `Todo` entity (src/lib/todo.js, JS185 version) -/

/-- The `Todo` entity: a todo id, title and "done" flag
(`src/lib/todo.js`, fields `#id`, `#title`, `#done`). -/
structure Todo where
  id : Nat
  title : String
  done : Bool
deriving DecidableEq, Repr

/-- `Todo.prototype.setTitle`: `this.#title = String(title)` (todo.js:202). -/
def Todo.setTitle (t : Todo) (v : JSVal) : Todo :=
  { t with title := jsString v }

/-- The `Todo` constructor on a non-Todo-like initial value (todo.js:94):
assigns a fresh id, sets the title via `setTitle`, and `done = false`. -/
def Todo.create (id : Nat) (v : JSVal) : Todo :=
  ({ id := id, title := "", done := false } : Todo).setTitle v

/-- `Todo.prototype.isDone` (todo.js:177). -/
def Todo.isDone (t : Todo) : Bool := t.done

/-- `Todo.prototype.getTitle` (todo.js:193). -/
def Todo.getTitle (t : Todo) : String := t.title

/-- `Todo.prototype.markDone` (todo.js:162). -/
def Todo.markDone (t : Todo) : Todo := { t with done := true }

/-- `Todo.prototype.markUndone` (todo.js:169). -/
def Todo.markUndone (t : Todo) : Todo := { t with done := false }

/-- `Todo.prototype.compare` (todo.js:149): equal done-state ties are broken
by `localeCompare` of the lowercased titles; otherwise "done" sorts after
"not done". -/
def Todo.compare (t o : Todo) : Int :=
  if t.isDone = o.isDone then
    localeCompare (jsToLower t.getTitle) (jsToLower o.getTitle)
  else if t.isDone then 1
  else -1

/-! ## The `TodoList` entity (src/lib/typedefs.js, JS185 version) -/

/-- The `TodoList` entity: id, title and the contained `Todo`s
(`src/lib/typedefs.js`, fields `#id`, `#title`, `#todos`). -/
structure TodoList where
  id : Nat
  title : String
  todos : List Todo
deriving DecidableEq, Repr

/-- `TodoList.prototype.size`: `this.#todos.length`. -/
def TodoList.size (l : TodoList) : Nat := l.todos.length

/-- `TodoList.prototype.getTitle`. -/
def TodoList.getTitle (l : TodoList) : String := l.title

/-- `TodoList.prototype.isDone`:
`this.size() > 0 && this.#todos.every((todo) => todo.isDone())`. -/
def TodoList.isDone (l : TodoList) : Bool :=
  decide (l.size > 0) && l.todos.all (·.isDone)

/-- The derived `countDone` attribute of the specification: the number of the
list's todos whose `done` flag is `true` (in the store it is the SQL aggregate
`sum(t.done::integer)`). -/
def TodoList.countDone (l : TodoList) : Nat :=
  (l.todos.filter (·.isDone)).length

/-- `TodoList.prototype.compare` (typedefs.js:154): same two-level rule as
`Todo.compare`, applied to the computed `isDone()` and the list titles. -/
def TodoList.compare (a b : TodoList) : Int :=
  if a.isDone = b.isDone then
    localeCompare (jsToLower a.getTitle) (jsToLower b.getTitle)
  else if a.isDone then 1
  else -1

/-- `TodoList.prototype._validateIndex` (typedefs.js:247): the index is valid
iff it is an integer (`Number.isInteger`) in `[0, size)`. JavaScript numbers
are modelled as rationals, so `Number.isInteger i` is `i.den = 1`. -/
def TodoList.validIndex (l : TodoList) (i : ℚ) : Prop :=
  i.den = 1 ∧ 0 ≤ i ∧ i < (l.size : ℚ)

instance (l : TodoList) (i : ℚ) : Decidable (l.validIndex i) := by
  unfold TodoList.validIndex; infer_instance

/-- `TodoList.prototype.itemAt` (typedefs.js:235): validates the index (a
`ReferenceError` when invalid), then returns `this.#todos[index]`. -/
def TodoList.itemAt (l : TodoList) (i : ℚ) : Except JSError Todo :=
  if l.validIndex i then
    match l.todos[i.num.toNat]? with
    | some t => .ok t
    | none => .error (.typeError "undefined element")
  else .error (.referenceError ("Invalid index: " ++ toString i.num))

/-- `TodoList.prototype.removeAt` (typedefs.js:305): validates the index, then
`this.#todos.splice(index, 1)[0]` — returns the removed todo and the list
without it. -/
def TodoList.removeAt (l : TodoList) (i : ℚ) :
    Except JSError (Todo × TodoList) :=
  if l.validIndex i then
    match l.todos[i.num.toNat]? with
    | some t => .ok (t, { l with todos := l.todos.eraseIdx i.num.toNat })
    | none => .error (.typeError "undefined element")
  else .error (.referenceError ("Invalid index: " ++ toString i.num))

/-- `TodoList.prototype.markDoneAt` (typedefs.js:258):
`this.itemAt(index).markDone()` — mutates the todo at the index. -/
def TodoList.markDoneAt (l : TodoList) (i : ℚ) : Except JSError TodoList :=
  if l.validIndex i then
    match l.todos[i.num.toNat]? with
    | some t => .ok { l with todos := l.todos.set i.num.toNat t.markDone }
    | none => .error (.typeError "undefined element")
  else .error (.referenceError ("Invalid index: " ++ toString i.num))

/-- `TodoList.prototype.markUndoneAt` (typedefs.js:267):
`this.itemAt(index).markUndone()`. -/
def TodoList.markUndoneAt (l : TodoList) (i : ℚ) : Except JSError TodoList :=
  if l.validIndex i then
    match l.todos[i.num.toNat]? with
    | some t => .ok { l with todos := l.todos.set i.num.toNat t.markUndone }
    | none => .error (.typeError "undefined element")
  else .error (.referenceError ("Invalid index: " ++ toString i.num))

/-- Whether an `Except` result is an error (a thrown JS exception). -/
def isErr {ε α : Type} : Except ε α → Bool
  | .error _ => true
  | .ok _ => false

/-! ## The two-level sort order and its properties -/

/-- `lexCompare` only takes the values `-1`, `0` and `1`. -/
theorem lexCompare_mem (as : List Char) : ∀ bs : List Char,
    lexCompare as bs = -1 ∨ lexCompare as bs = 0 ∨ lexCompare as bs = 1 := by
  induction as with
  | nil => intro bs; cases bs <;> simp [lexCompare]
  | cons a as ih =>
    intro bs
    cases bs with
    | nil => simp [lexCompare]
    | cons b bs =>
      unfold lexCompare
      split
      · simp
      · split
        · simp
        · exact ih bs

/-- Swapping the arguments negates the comparison. -/
theorem lexCompare_swap (as : List Char) : ∀ bs : List Char,
    lexCompare bs as = - lexCompare as bs := by
  induction as with
  | nil => intro bs; cases bs <;> simp [lexCompare]
  | cons a as ih =>
    intro bs
    cases bs with
    | nil => simp [lexCompare]
    | cons b bs =>
      unfold lexCompare
      rcases lt_trichotomy a b with h | h | h
      · simp [h, asymm h]
      · subst h
        simp [lt_irrefl, ih bs]
      · simp [h, asymm h]

theorem lexCompare_nonpos_total (as bs : List Char) :
    lexCompare as bs ≤ 0 ∨ lexCompare bs as ≤ 0 := by
  rcases lexCompare_mem as bs with h | h | h
  · left; simp [h]
  · left; simp [h]
  · right
    rw [lexCompare_swap, h]
    simp

/-- Unfolding a non-positive comparison of two cons cells. -/
theorem lexCompare_cons_nonpos {a b : Char} {as bs : List Char}
    (h : lexCompare (a :: as) (b :: bs) ≤ 0) :
    a < b ∨ (a = b ∧ lexCompare as bs ≤ 0) := by
  unfold lexCompare at h
  rcases lt_trichotomy a b with hab | hab | hab
  · exact Or.inl hab
  · right
    subst hab
    simpa [lt_irrefl] using h
  · rw [if_neg (asymm hab), if_pos hab] at h
    omega

theorem lexCompare_cons_nonpos' {a b : Char} {as bs : List Char}
    (h : a < b ∨ (a = b ∧ lexCompare as bs ≤ 0)) :
    lexCompare (a :: as) (b :: bs) ≤ 0 := by
  unfold lexCompare
  rcases h with h | ⟨h, hrec⟩
  · simp [h]
  · subst h
    simpa [lt_irrefl] using hrec

theorem lexCompare_trans (as : List Char) : ∀ bs cs : List Char,
    lexCompare as bs ≤ 0 → lexCompare bs cs ≤ 0 → lexCompare as cs ≤ 0 := by
  induction as with
  | nil => intro bs cs _ _; cases cs <;> simp [lexCompare]
  | cons a as ih =>
    intro bs cs h1 h2
    cases bs with
    | nil => simp [lexCompare] at h1
    | cons b bs =>
      cases cs with
      | nil => simp [lexCompare] at h2
      | cons c cs =>
        apply lexCompare_cons_nonpos'
        rcases lexCompare_cons_nonpos h1 with hab | ⟨hab, hr1⟩ <;>
          rcases lexCompare_cons_nonpos h2 with hbc | ⟨hbc, hr2⟩
        · exact Or.inl (lt_trans hab hbc)
        · exact Or.inl (hbc ▸ hab)
        · exact Or.inl (hab ▸ hbc)
        · exact Or.inr ⟨hab.trans hbc, ih bs cs hr1 hr2⟩

/-- The two-level "done first, then lowercased title" order on keys: the order
underlying both `compare` methods and the SQL `ORDER BY done, lower(title)`
clauses. -/
def doneTitleLE (p q : Bool × String) : Prop :=
  (p.1 = false ∧ q.1 = true) ∨ (p.1 = q.1 ∧ localeCompare p.2 q.2 ≤ 0)

instance : DecidableRel doneTitleLE := by
  unfold doneTitleLE localeCompare; infer_instance

theorem doneTitleLE_total (p q : Bool × String) :
    doneTitleLE p q ∨ doneTitleLE q p := by
  rcases p with ⟨pd, ps⟩; rcases q with ⟨qd, qs⟩
  unfold doneTitleLE localeCompare
  rcases lexCompare_nonpos_total ps.data qs.data with h | h <;>
    cases pd <;> cases qd <;> simp [h]

theorem doneTitleLE_trans {p q u : Bool × String} (h1 : doneTitleLE p q)
    (h2 : doneTitleLE q u) : doneTitleLE p u := by
  rcases p with ⟨pd, ps⟩; rcases q with ⟨qd, qs⟩; rcases u with ⟨ud, us⟩
  unfold doneTitleLE localeCompare at *
  rcases h1 with ⟨h1a, h1b⟩ | ⟨h1a, h1b⟩ <;>
    rcases h2 with ⟨h2a, h2b⟩ | ⟨h2a, h2b⟩
  · simp_all
  · simp_all
  · simp_all
  · exact Or.inr ⟨h1a.trans h2a, lexCompare_trans _ _ _ h1b h2b⟩

/-- `localeCompare` only takes the values `-1`, `0` and `1`. -/
theorem localeCompare_mem (a b : String) :
    localeCompare a b = -1 ∨ localeCompare a b = 0 ∨ localeCompare a b = 1 :=
  lexCompare_mem a.data b.data

/-- The sort relation on `TodoList`s used by `TodoLists.sort`: list `a` does
not come after list `b` exactly when the comparator is non-positive. -/
def listLE (a b : TodoList) : Prop := a.compare b ≤ 0

instance : DecidableRel listLE := by
  unfold listLE; infer_instance

/-- `TodoList.compare a b ≤ 0` coincides with the two-level key order. -/
theorem listLE_iff (a b : TodoList) :
    listLE a b ↔ doneTitleLE (a.isDone, jsToLower a.getTitle)
      (b.isDone, jsToLower b.getTitle) := by
  unfold listLE TodoList.compare doneTitleLE
  rcases ha : a.isDone <;> rcases hb : b.isDone <;> simp [ha, hb]

instance : IsTotal TodoList listLE :=
  ⟨fun a b => by
    rw [listLE_iff, listLE_iff]
    exact doneTitleLE_total _ _⟩

instance : IsTrans TodoList listLE :=
  ⟨fun a b c hab hbc => by
    rw [listLE_iff] at *
    exact doneTitleLE_trans hab hbc⟩

/-! ## The `TodoLists` collection (src/lib/db-pool.js, `TodoLists` class) -/

/-- The `TodoLists` collection: an ordered collection of `TodoList`s. -/
structure TodoLists where
  lists : List TodoList
deriving DecidableEq, Repr

/-- `TodoLists.prototype.find` (db-pool.js:66): first list with matching id,
or `undefined`. -/
def TodoLists.find (c : TodoLists) (id : Nat) : Option TodoList :=
  c.lists.find? (fun l => l.id = id)

/-- `TodoLists.prototype.sort` (db-pool.js:89): sorts `this.lists` in place
with the default comparator `(a, b) => a.compare(b)` (a stable sort per
ES2019, modelled as insertion sort on `compare ≤ 0`) and returns the
collection for chaining; in-place mutation is modelled by returning the
updated collection. -/
def TodoLists.sort (c : TodoLists) : TodoLists :=
  ⟨c.lists.insertionSort listLE⟩

/-! ## Database model (src/sql/schema.sql) -/

/-- A persisted row of the `todolists` table. Per `schema.sql` the `user_id`
column is `integer NOT NULL REFERENCES users (id)`, so every persisted row
carries a user id; the table also carries `UNIQUE (title, user_id)`. -/
structure ListRow where
  id : Nat
  title : String
  userId : Nat
deriving DecidableEq, Repr

/-- A persisted row of the `todos` table (`schema.sql`): `id`, `title`,
`done boolean NOT NULL DEFAULT FALSE`, and
`todolist_id integer NOT NULL REFERENCES todolists (id) ON DELETE CASCADE`. -/
structure TodoRow where
  id : Nat
  title : String
  done : Bool
  todolistId : Nat
deriving DecidableEq, Repr

/-- The database state: the two core tables. -/
structure DB where
  lists : List ListRow
  todos : List TodoRow
deriving DecidableEq, Repr

/-- Database well-formedness, guaranteed by `schema.sql`: primary keys are
unique in both tables, and the `todos.todolist_id` foreign key references an
existing list. -/
def DB.wf (db : DB) : Prop :=
  db.lists.Pairwise (fun a b => a.id ≠ b.id) ∧
  db.todos.Pairwise (fun a b => a.id ≠ b.id) ∧
  ∀ t ∈ db.todos, ∃ l ∈ db.lists, l.id = t.todolistId

/-- PostgreSQL errors surfaced to the node-postgres client; the store's
private helpers classify them by matching the error message
(`/violates unique constraint/`, `/violates foreign key constraint/`). -/
inductive PGError where
  | uniqueViolation (constraint : String)
  | notNullViolation (column : String)
  | fkViolation (constraint : String)
deriving DecidableEq, Repr

/-- `TodoPGStore.#isUniqueConstraintViolation` (todo-pg-store.js:49): matches
exactly the unique-constraint violations. -/
def isUniqueConstraintViolation : PGError → Bool
  | .uniqueViolation _ => true
  | _ => false

/-- The typed error codes of the store (todo-pg-store.js:27-29):
`InvalidListID` and `InvalidTodoID` are the NotFound kind,
`NonUniqueListTitle` is the Conflict kind. -/
inductive StoreErrCode where
  | invalidListID
  | invalidTodoID
  | nonUniqueListTitle
deriving DecidableEq, Repr

/-- The observable completion of one store method call:
* `ok a` — a normal return with value `a` (sentinel results such as `false`,
  `undefined`, or a row count travel through `a`);
* `thrownStore e` — one of the store's typed errors was thrown
  (`options.throw = true` path of `#err`);
* `thrownRaw e` — a raw database error escaped the method;
* `thrownJS e` — a JavaScript runtime error was thrown while the method ran. -/
inductive Outcome (α : Type) where
  | ok (a : α)
  | thrownStore (e : StoreErrCode)
  | thrownRaw (e : PGError)
  | thrownJS (e : JSError)
deriving DecidableEq, Repr

/-- Semantics of `INSERT INTO todolists (title) VALUES ($1)` against
`schema.sql`: the insert supplies values only for `title`, so `user_id`
receives NULL; `user_id` is declared `NOT NULL` with no default, so the
statement checks the not-null constraint first, then `UNIQUE (title,
user_id)`. `newId` stands for the `serial` id the row would receive. -/
def insertTodolist (db : DB) (title : String) (userId : Option Nat)
    (newId : Nat) : Except PGError DB :=
  match userId with
  | none => .error (.notNullViolation "user_id")
  | some u =>
    if db.lists.any (fun r => r.title = title ∧ r.userId = u) then
      .error (.uniqueViolation "todolists_title_user_id_key")
    else
      .ok { db with lists := db.lists ++ [⟨newId, title, u⟩] }

/-- Semantics of `UPDATE todolists SET title = $2 WHERE id = $1` against
`schema.sql`: returns the updated database and the affected row count, or a
unique-constraint violation when the updated row would collide with a
*different* row holding the same `(title, user_id)` pair. -/
def updateListTitle (db : DB) (listID : Nat) (title : String) :
    Except PGError (DB × Nat) :=
  match db.lists.find? (fun r => r.id = listID) with
  | none => .ok (db, 0)
  | some r =>
    if db.lists.any (fun r2 => r2.id ≠ listID ∧ r2.title = title ∧
        r2.userId = r.userId) then
      .error (.uniqueViolation "todolists_title_user_id_key")
    else
      .ok ({ db with lists := db.lists.map (fun r2 =>
        if r2.id = listID then { r2 with title := title } else r2) },
        (db.lists.filter (fun r2 => r2.id = listID)).length)

/-! ## The persistence store (src/lib/todo-pg-store.js) -/

/-- `TodoPGStore.prototype.addList` (todo-pg-store.js:503): runs
`INSERT INTO todolists (title) VALUES ($1)` — note that the statement supplies
no `user_id`. A caught unique-constraint violation becomes the typed
`NonUniqueListTitle` error (thrown when `options.throw`, otherwise the method
returns `false`); every other error is re-thrown raw. On success the method
returns `true`. -/
def addList (db : DB) (title : String) (throwOpt : Bool) (newId : Nat) :
    DB × Outcome Bool :=
  match insertTodolist db title none newId with
  | .ok db' => (db', .ok true)
  | .error e =>
    if isUniqueConstraintViolation e then
      (db, if throwOpt then .thrownStore .nonUniqueListTitle else .ok false)
    else
      (db, .thrownRaw e)

/-- `TodoPGStore.prototype.setListTitle` (todo-pg-store.js:682). The `catch`
block reads:
`if (unique violation) { this.#errNonUniqueListTitle(title, options); }
 throw err;`
— when `options.throw` is true, `#errNonUniqueListTitle` throws the typed
error; when it is false, the typed error object is *returned* by the helper,
discarded, and the raw database error is re-thrown by the unconditional
`throw err`. On `rowCount === 0` the method calls `#errInvalidListID` and then
returns the query result (a row count) either way. -/
def setListTitle (db : DB) (listID : Nat) (title : String) (throwOpt : Bool) :
    DB × Outcome Nat :=
  match updateListTitle db listID title with
  | .error e =>
    if isUniqueConstraintViolation e ∧ throwOpt then
      (db, .thrownStore .nonUniqueListTitle)
    else
      (db, .thrownRaw e)
  | .ok (db', n) =>
    if n = 0 then
      (db', if throwOpt then .thrownStore .invalidListID else .ok 0)
    else
      (db', .ok n)

/-- One row of the joined todo query results (`TodoQueryResult` in
typedefs.js): a todo row joined with its list's id and title. -/
structure TodoQueryRow where
  id : Nat
  title : String
  done : Bool
  listID : Nat
  listTitle : String
deriving DecidableEq, Repr

/-- The object built by `sortedTodoList` (a `TodoListQueryResult`): the list's
metadata plus its todos sorted by `(done, lower(title))`. -/
structure TodoListQueryResult where
  id : Nat
  title : String
  length : Nat
  countDone : Nat
  done : Bool
  todos : List TodoQueryRow
deriving DecidableEq, Repr

/-- The SQL `ORDER BY t.done, lower(t.title)` key order on todo rows
(`false` sorts before `true`). -/
def sqlTodoRowLE (a b : TodoRow) : Prop :=
  doneTitleLE (a.done, jsToLower a.title) (b.done, jsToLower b.title)

instance : DecidableRel sqlTodoRowLE := by
  unfold sqlTodoRowLE; infer_instance

instance : IsTotal TodoRow sqlTodoRowLE :=
  ⟨fun a b => doneTitleLE_total _ _⟩

instance : IsTrans TodoRow sqlTodoRowLE :=
  ⟨fun _ _ _ hab hbc => doneTitleLE_trans hab hbc⟩

/-- `TodoPGStore.prototype.sortedTodoList` (todo-pg-store.js:250): a single
CTE query computing the list's metadata (`length`, `countDone`,
`done = length > 0 AND countDone = length`) by aggregation over the current
`todos` rows, right-joined with the todos and ordered by
`(done, lower(title))`.

When the list id does not exist the query returns zero rows; the method then
calls `#errInvalidListID(listID, options)` — which throws the typed error
only when `options.throw` — and *continues* into
`queryRows[0].listLength === 0`, reading a property of `undefined`: with
`options.throw = false` the method therefore throws a `TypeError`. -/
def sortedTodoList (db : DB) (listID : Nat) (throwOpt : Bool) :
    Outcome TodoListQueryResult :=
  match db.lists.find? (fun r => r.id = listID) with
  | none =>
    if throwOpt then .thrownStore .invalidListID
    else .thrownJS (.typeError "Cannot read properties of undefined")
  | some L =>
    let mine := db.todos.filter (fun t => t.todolistId = listID)
    let len := mine.length
    let cd := (mine.filter (·.done)).length
    let sorted := mine.insertionSort sqlTodoRowLE
    .ok {
      id := listID
      title := L.title
      length := len
      countDone := cd
      done := decide (len > 0) && decide (cd = len)
      todos := sorted.map (fun t =>
        ⟨t.id, t.title, t.done, listID, L.title⟩) }

/-- One row of `sortedTodoLists` (a `TodoListMetadataQueryResult`). -/
structure TodoListMetadataRow where
  id : Nat
  title : String
  length : Nat
  countDone : Nat
  done : Bool
deriving DecidableEq, Repr

/-- The SQL `ORDER BY done, lower(title)` key order on list metadata rows. -/
def sqlListMetaLE (a b : TodoListMetadataRow) : Prop :=
  doneTitleLE (a.done, jsToLower a.title) (b.done, jsToLower b.title)

instance : DecidableRel sqlListMetaLE := by
  unfold sqlListMetaLE; infer_instance

/-- `TodoPGStore.prototype.sortedTodoLists` (todo-pg-store.js:208): for every
`todolists` row (LEFT JOIN keeps lists with no todos), aggregate
`length = count(t.id)`, `countDone = coalesce(sum(t.done::integer), 0)` and
compute `done = length > 0 AND countDone = length`; order the rows by
`(done, lower(title))`. Note the query has no owner filter. -/
def sortedTodoLists (db : DB) : List TodoListMetadataRow :=
  (db.lists.map (fun L =>
    let mine := db.todos.filter (fun t => t.todolistId = L.id)
    ({ id := L.id
       title := L.title
       length := mine.length
       countDone := (mine.filter (·.done)).length
       done := decide (mine.length > 0) &&
         decide ((mine.filter (·.done)).length = mine.length) }
      : TodoListMetadataRow))).insertionSort sqlListMetaLE

/-- `TodoPGStore.prototype.listExists` (todo-pg-store.js:342), success value
only: whether a `todolists` row with the id exists. -/
def listExists (db : DB) (listID : Nat) : Bool :=
  db.lists.any (fun r => r.id = listID)

/-- `TodoPGStore.prototype.todoExists` (todo-pg-store.js:361), success value
only: whether a `todos` row with the id exists (in any list). -/
def todoExists (db : DB) (todoID : Nat) : Bool :=
  db.todos.any (fun t => t.id = todoID)

/-- The row update performed by `toggleDone`'s
`UPDATE todos SET done = NOT done WHERE id = $1 AND todolist_id = $2`. -/
def toggleRow (todoID listID : Nat) (t : TodoRow) : TodoRow :=
  if t.id = todoID ∧ t.todolistId = listID then { t with done := !t.done }
  else t

/-- The rows affected by `toggleDone`'s
`UPDATE ... WHERE id = $1 AND todolist_id = $2 RETURNING ...` clause, read
off the post-update table. -/
def toggledRows (db' : DB) (todoID listID : Nat) : List TodoRow :=
  db'.todos.filter (fun t => t.id = todoID ∧ t.todolistId = listID)

/-- `JOIN todolists tl ON <row>.todolist_id = tl.id` over a set of returned
todo rows, projecting the columns of a `TodoQueryRow`. -/
def joinRows (db' : DB) (rows : List TodoRow) : List TodoQueryRow :=
  rows.filterMap (fun t =>
    (db'.lists.find? (fun L => L.id = t.todolistId)).map (fun L =>
      (⟨t.id, t.title, t.done, t.todolistId, L.title⟩ : TodoQueryRow)))

/-- `TodoPGStore.prototype.toggleDone` (todo-pg-store.js:457): inside
`withTransaction`, checks `listExists` then `todoExists` (returning
`undefined` — or throwing the typed error when `options.throw` — if either
fails), then runs the CTE statement toggling the matching row and returning
it joined with its list's title; the method returns `rows[0]`
(`undefined` when the update matched no row). -/
def toggleDone (db : DB) (todoID listID : Nat) (throwOpt : Bool) :
    DB × Outcome (Option TodoQueryRow) :=
  if ¬ listExists db listID then
    (db, if throwOpt then .thrownStore .invalidListID else .ok none)
  else if ¬ todoExists db todoID then
    (db, if throwOpt then .thrownStore .invalidTodoID else .ok none)
  else
    let db' : DB := { db with todos := db.todos.map (toggleRow todoID listID) }
    (db', .ok (joinRows db' (toggledRows db' todoID listID)).head?)

/-- One row of `removeList`'s final SELECT: a removed todo row joined with the
removed list's title and aggregated metadata. -/
structure RemovedTodoRow where
  id : Nat
  title : String
  done : Bool
  listID : Nat
  listTitle : String
  listLength : Nat
  countDone : Nat
deriving DecidableEq, Repr

/-- The pre-deletion snapshot object built by `removeList`
(todo-pg-store.js:662): note that its `done` field is `queryRows[0].done`,
i.e. the `rt.done` column of the *first result row* — the first removed todo
in `(done, lower(title))` order — which is NULL (`none`) when the list had no
todos; the `done` column computed in the `list_metadata` CTE is not selected
by the final SELECT. -/
structure RemovedListSnapshot where
  id : Nat
  title : String
  length : Nat
  countDone : Nat
  done : Option Bool
  todos : List RemovedTodoRow
deriving DecidableEq, Repr

/-- `TodoPGStore.prototype.removeList` (todo-pg-store.js:597): one statement
whose CTEs delete the list's todos and the list itself, aggregate the
metadata from the deleted rows, and right-join the deleted todos with the
metadata, ordered by `(done, lower(title))`. Zero result rows (the list id
did not exist) produce `#errInvalidListID` and `undefined`; otherwise the
snapshot object is built from the result rows (`resultRows` is `[]` when
`listLength` is `0`). -/
def removeList (db : DB) (listID : Nat) (throwOpt : Bool) :
    DB × Outcome (Option RemovedListSnapshot) :=
  let removedTodos := db.todos.filter (fun t => t.todolistId = listID)
  let db' : DB :=
    { lists := db.lists.filter (fun r => r.id ≠ listID)
      todos := db.todos.filter (fun t => t.todolistId ≠ listID) }
  match db.lists.find? (fun r => r.id = listID) with
  | none =>
    (db', if throwOpt then .thrownStore .invalidListID else .ok none)
  | some L =>
    let len := removedTodos.length
    let cd := (removedTodos.filter (·.done)).length
    let sorted := removedTodos.insertionSort sqlTodoRowLE
    let rows : List RemovedTodoRow := sorted.map (fun t =>
      ⟨t.id, t.title, t.done, listID, L.title, len, cd⟩)
    (db', .ok (some {
      id := listID
      title := L.title
      length := len
      countDone := cd
      done := sorted.head?.map (·.done)
      todos := if len = 0 then [] else rows }))

/-! ## The transaction wrapper (todo-pg-store.js:186) -/

/-- Commands sent to the database client, as far as transaction handling is
concerned. -/
inductive TxCmd where
  | beginTx
  | commitTx
  | rollbackTx
  | stmt (label : String)
deriving DecidableEq, Repr

/-- The guard of `withTransaction` as written (todo-pg-store.js:187):
`if (this.#isInTransaction()) return callback();`. The call to the `async`
method `#isInTransaction` is not awaited, so the guard tests the truthiness
of the returned Promise *object* — which is always truthy — not the boolean
it resolves to. -/
def isInTransactionGuard : Bool := true

/-- `TodoPGStore.prototype.withTransaction` (todo-pg-store.js:186), modelled
at the level of the command trace sent to the database: `callbackTrace` is
the statement trace the callback issues and `callbackFails` tells whether the
callback throws. Because `isInTransactionGuard` is always true, the method
returns the callback's trace unchanged — no `BEGIN`, `COMMIT` or `ROLLBACK`
is ever issued by it. -/
def withTransaction (callbackTrace : List TxCmd) (callbackFails : Bool) :
    List TxCmd :=
  if isInTransactionGuard then callbackTrace
  else if callbackFails then
    [TxCmd.beginTx] ++ callbackTrace ++ [TxCmd.rollbackTx]
  else
    [TxCmd.beginTx] ++ callbackTrace ++ [TxCmd.commitTx]

/-- The statement trace `toggleDone` issues through `withTransaction`
(todo-pg-store.js:483): the `listExists` check, the `todoExists` check, and
the toggling CTE statement. -/
def toggleDoneTrace (callbackFails : Bool) : List TxCmd :=
  withTransaction
    [TxCmd.stmt "SELECT id FROM todolists WHERE id = $1",
     TxCmd.stmt "SELECT id FROM todos WHERE id = $1",
     TxCmd.stmt "UPDATE todos SET done = NOT done ..."]
    callbackFails

/-! ## Helper lemmas -/

theorem toDigitsCore_ne_nil (b : Nat) :
    ∀ (fuel n : Nat) (ds : List Char), ds ≠ [] ∨ fuel ≠ 0 →
      Nat.toDigitsCore b fuel n ds ≠ [] := by
  intro fuel
  induction fuel with
  | zero =>
    intro n ds h
    rcases h with h | h
    · simpa [Nat.toDigitsCore] using h
    · exact absurd rfl h
  | succ f ih =>
    intro n ds _
    simp only [Nat.toDigitsCore]
    split
    · exact List.cons_ne_nil _ _
    · exact ih _ _ (Or.inl (List.cons_ne_nil _ _))

theorem natRepr_ne_empty (n : Nat) : Nat.repr n ≠ "" := by
  intro h
  have hdata : Nat.toDigitsCore 10 (n + 1) n [] = [] := by
    have := congrArg String.data h
    simpa [Nat.repr, Nat.toDigits, List.asString] using this
  exact toDigitsCore_ne_nil 10 (n + 1) n [] (Or.inr (Nat.succ_ne_zero n)) hdata

theorem intToString_ne_empty (n : Int) : toString n ≠ "" := by
  cases n with
  | ofNat m => exact natRepr_ne_empty m
  | negSucc m =>
    intro h
    have := congrArg String.data h
    simp [toString, String.data_append] at this

/-- The string coercion `String(value)` yields the empty string only for the
empty-string input. -/
theorem jsString_eq_empty_iff (v : JSVal) : jsString v = "" ↔ v = .str "" := by
  cases v with
  | str s => simp [jsString]
  | num n => simpa [jsString] using intToString_ne_empty n
  | boolean b => cases b <;> simp [jsString]
  | nullV => simp [jsString]
  | undef => simp [jsString]

theorem validIndex_lt (l : TodoList) (i : ℚ) (h : l.validIndex i) :
    i.num.toNat < l.todos.length := by
  obtain ⟨hden, hpos, hlt⟩ := h
  have hnum : (i.num : ℚ) = i := (Rat.den_eq_one_iff i).mp hden
  have h2 : i.num < (l.todos.length : Int) := by
    have h1 : (i.num : ℚ) < ((l.todos.length : Int) : ℚ) := by
      rw [hnum]
      exact_mod_cast hlt
    exact_mod_cast h1
  have h3 : 0 ≤ i.num := Rat.num_nonneg.mpr hpos
  omega

theorem itemAt_isErr (l : TodoList) (i : ℚ) :
    isErr (l.itemAt i) = true ↔ ¬ l.validIndex i := by
  by_cases h : l.validIndex i
  · have hb := validIndex_lt l i h
    unfold TodoList.itemAt
    rw [if_pos h, List.getElem?_eq_getElem hb]
    simp [isErr, h]
  · unfold TodoList.itemAt
    rw [if_neg h]
    simp [isErr, h]

theorem removeAt_isErr (l : TodoList) (i : ℚ) :
    isErr (l.removeAt i) = true ↔ ¬ l.validIndex i := by
  by_cases h : l.validIndex i
  · have hb := validIndex_lt l i h
    unfold TodoList.removeAt
    rw [if_pos h, List.getElem?_eq_getElem hb]
    simp [isErr, h]
  · unfold TodoList.removeAt
    rw [if_neg h]
    simp [isErr, h]

theorem markDoneAt_isErr (l : TodoList) (i : ℚ) :
    isErr (l.markDoneAt i) = true ↔ ¬ l.validIndex i := by
  by_cases h : l.validIndex i
  · have hb := validIndex_lt l i h
    unfold TodoList.markDoneAt
    rw [if_pos h, List.getElem?_eq_getElem hb]
    simp [isErr, h]
  · unfold TodoList.markDoneAt
    rw [if_neg h]
    simp [isErr, h]

theorem markUndoneAt_isErr (l : TodoList) (i : ℚ) :
    isErr (l.markUndoneAt i) = true ↔ ¬ l.validIndex i := by
  by_cases h : l.validIndex i
  · have hb := validIndex_lt l i h
    unfold TodoList.markUndoneAt
    rw [if_pos h, List.getElem?_eq_getElem hb]
    simp [isErr, h]
  · unfold TodoList.markUndoneAt
    rw [if_neg h]
    simp [isErr, h]

/-- `all p = true` exactly when the filtered length equals the length. -/
theorem all_eq_filter_length {α : Type} (l : List α) (p : α → Bool) :
    l.all p = decide ((l.filter p).length = l.length) := by
  by_cases h : l.all p = true
  · have hlen : (l.filter p).length = l.length := by
      rw [← List.countP_eq_length_filter, List.countP_eq_length]
      exact List.all_eq_true.mp h
    simp [h, hlen]
  · have h' : l.all p = false := by simpa using h
    rw [List.all_eq_true] at h
    push_neg at h
    obtain ⟨x, hx, hpx⟩ := h
    have hlt : (l.filter p).length ≠ l.length := by
      intro heq
      rw [← List.countP_eq_length_filter, List.countP_eq_length] at heq
      exact hpx (heq x hx)
    simp [h', hlt]

/-! ## Claim C10 — title coercion -/

/-- C10 counterexample: the claim says the stored title "is never empty after
normalization", but `new Todo("")` (equivalently `setTitle("")`) stores the
empty string: `Todo.setTitle` only applies the `String(value)` coercion and
enforces no non-emptiness. -/
theorem claim_C10_counterexample :
    (Todo.create 1 (JSVal.str "")).getTitle = "" := rfl

/-- C10 (amended): after construction and after every `setTitle(value)` call
the stored title is exactly the string coercion `String(value)` of the
argument — hence always a string — and no other field changes; the title can
be empty, exactly when the coerced value is the empty string, since
non-emptiness is enforced by the caller/validation layer, not by `Todo`. -/
theorem claim_C10_title_coercion :
    ∀ (t : Todo) (v : JSVal) (i : Nat),
      (t.setTitle v).getTitle = jsString v ∧
      (t.setTitle v).id = t.id ∧
      (t.setTitle v).done = t.done ∧
      (Todo.create i v).getTitle = jsString v ∧
      (Todo.create i v).id = i ∧
      (Todo.create i v).done = false ∧
      ((t.setTitle v).getTitle = "" ↔ v = .str "") := by
  intro t v i
  refine ⟨rfl, rfl, rfl, rfl, rfl, rfl, ?_⟩
  simpa [Todo.setTitle, Todo.getTitle] using jsString_eq_empty_iff v

/-! ## Claim C9 — index validation bounds -/

/-- C9: `itemAt`, `removeAt`, `markDoneAt` and `markUndoneAt` fail (throw the
index `ReferenceError`) exactly when the index is not an integer in
`[0, size)`; in particular they fail at `-1`, at `size`, and at every index
beyond `size`, and succeed on every integer index in range. -/
theorem claim_C9_index_bounds :
    ∀ (l : TodoList) (i : ℚ),
      (isErr (l.itemAt i) = true ↔
        ¬ (i.den = 1 ∧ 0 ≤ i ∧ i < (l.size : ℚ))) ∧
      (isErr (l.removeAt i) = true ↔
        ¬ (i.den = 1 ∧ 0 ≤ i ∧ i < (l.size : ℚ))) ∧
      (isErr (l.markDoneAt i) = true ↔
        ¬ (i.den = 1 ∧ 0 ≤ i ∧ i < (l.size : ℚ))) ∧
      (isErr (l.markUndoneAt i) = true ↔
        ¬ (i.den = 1 ∧ 0 ≤ i ∧ i < (l.size : ℚ))) ∧
      isErr (l.itemAt (-1)) = true ∧
      isErr (l.removeAt (l.size : ℚ)) = true ∧
      ((l.size : ℚ) < i → isErr (l.markDoneAt i) = true) := by
  intro l i
  have hiff : ∀ j : ℚ, ¬ l.validIndex j ↔
      ¬ (j.den = 1 ∧ 0 ≤ j ∧ j < (l.size : ℚ)) := fun j => Iff.rfl
  refine ⟨(itemAt_isErr l i).trans (hiff i),
    (removeAt_isErr l i).trans (hiff i),
    (markDoneAt_isErr l i).trans (hiff i),
    (markUndoneAt_isErr l i).trans (hiff i), ?_, ?_, ?_⟩
  · rw [itemAt_isErr]
    rintro ⟨-, hpos, -⟩
    norm_num at hpos
  · rw [removeAt_isErr]
    rintro ⟨-, -, hlt⟩
    exact lt_irrefl _ hlt
  · intro hgt
    rw [markDoneAt_isErr]
    rintro ⟨-, -, hlt⟩
    exact absurd (lt_trans hlt hgt) (lt_irrefl i)

/-- C9 witness: on a two-element list, index `-1`, index `2` and index `7/2`
fail while the integer indices `0` and `1` succeed. -/
theorem claim_C9_witness :
    (isErr ((⟨1, "Work", [⟨1, "a", false⟩, ⟨2, "b", true⟩]⟩ :
        TodoList).markDoneAt ((7 : ℚ) / 2)) = true) ∧
    ((2 : ℚ) < (7 : ℚ) / 2) ∧
    (isErr ((⟨1, "Work", [⟨1, "a", false⟩, ⟨2, "b", true⟩]⟩ :
        TodoList).itemAt 0) = false) := by
  have h := claim_C9_index_bounds
    ⟨1, "Work", [⟨1, "a", false⟩, ⟨2, "b", true⟩]⟩ ((7 : ℚ) / 2)
  refine ⟨?_, by norm_num, ?_⟩
  · exact (h.2.2.2.2.2.2 (by norm_num [TodoList.size]))
  · have h0 := claim_C9_index_bounds
      ⟨1, "Work", [⟨1, "a", false⟩, ⟨2, "b", true⟩]⟩ 0
    have := h0.1
    rcases hv : isErr ((⟨1, "Work", [⟨1, "a", false⟩, ⟨2, "b", true⟩]⟩ :
        TodoList).itemAt 0) with _ | _
    · rfl
    · exfalso
      rw [hv] at this
      have hc := this.mp rfl
      apply hc
      refine ⟨rfl, le_refl 0, ?_⟩
      norm_num [TodoList.size]

/-! ## Claim C6 — the compare methods -/

/-- C6: both `Todo.compare` and `TodoList.compare` return `-1`, `0` or `1`;
a done element sorts after a not-done one (`1` when `this` is done and the
other is not, `-1` in the opposite case); equal done-state ties are ordered
by the case-insensitive (lowercased), locale-aware comparison of the titles
(modelled by `localeCompare`). -/
theorem claim_C6_compare_order :
    ∀ (t o : Todo) (a b : TodoList),
      (t.compare o = -1 ∨ t.compare o = 0 ∨ t.compare o = 1) ∧
      (t.isDone = true → o.isDone = false → t.compare o = 1) ∧
      (t.isDone = false → o.isDone = true → t.compare o = -1) ∧
      (t.isDone = o.isDone →
        t.compare o = localeCompare (jsToLower t.getTitle) (jsToLower o.getTitle)) ∧
      (a.compare b = -1 ∨ a.compare b = 0 ∨ a.compare b = 1) ∧
      (a.isDone = true → b.isDone = false → a.compare b = 1) ∧
      (a.isDone = false → b.isDone = true → a.compare b = -1) ∧
      (a.isDone = b.isDone →
        a.compare b = localeCompare (jsToLower a.getTitle) (jsToLower b.getTitle)) := by
  intro t o a b
  refine ⟨?_, ?_, ?_, ?_, ?_, ?_, ?_, ?_⟩
  · unfold Todo.compare
    split
    · exact localeCompare_mem _ _
    · split <;> simp
  · intro h1 h2
    unfold Todo.compare
    rw [h1, h2]
    simp
  · intro h1 h2
    unfold Todo.compare
    rw [h1, h2]
    simp
  · intro h
    unfold Todo.compare
    rw [if_pos h]
  · unfold TodoList.compare
    split
    · exact localeCompare_mem _ _
    · split <;> simp
  · intro h1 h2
    unfold TodoList.compare
    rw [h1, h2]
    simp
  · intro h1 h2
    unfold TodoList.compare
    rw [h1, h2]
    simp
  · intro h
    unfold TodoList.compare
    rw [if_pos h]

/-- C6 witness: concrete comparisons — a done todo after a not-done one, the
opposite direction, and an equal-done tie resolved by the lowercased-title
comparison; same at the list level with the computed `isDone`. -/
theorem claim_C6_witness :
    ((⟨1, "a", true⟩ : Todo).compare ⟨2, "b", false⟩ = 1) ∧
    ((⟨2, "b", false⟩ : Todo).compare ⟨1, "a", true⟩ = -1) ∧
    ((⟨1, "Ab", false⟩ : Todo).compare ⟨2, "aa", false⟩ =
      localeCompare "ab" "aa") ∧
    ((⟨1, "Home", [⟨1, "x", true⟩]⟩ : TodoList).compare ⟨2, "Work", []⟩ = 1) := by
  obtain ⟨-, h2, -, h4, -, -, -, -⟩ :=
    claim_C6_compare_order (⟨1, "a", true⟩ : Todo) ⟨2, "b", false⟩
      (⟨1, "Home", [⟨1, "x", true⟩]⟩ : TodoList) ⟨2, "Work", []⟩
  obtain ⟨-, -, h3, -, -, -, -, -⟩ :=
    claim_C6_compare_order (⟨2, "b", false⟩ : Todo) ⟨1, "a", true⟩
      (⟨1, "Home", [⟨1, "x", true⟩]⟩ : TodoList) ⟨2, "Work", []⟩
  obtain ⟨-, -, -, h4', -, -, -, -⟩ :=
    claim_C6_compare_order (⟨1, "Ab", false⟩ : Todo) ⟨2, "aa", false⟩
      (⟨1, "Home", [⟨1, "x", true⟩]⟩ : TodoList) ⟨2, "Work", []⟩
  obtain ⟨-, -, -, -, -, h6, -, -⟩ :=
    claim_C6_compare_order (⟨1, "a", true⟩ : Todo) ⟨2, "b", false⟩
      (⟨1, "Home", [⟨1, "x", true⟩]⟩ : TodoList) ⟨2, "Work", []⟩
  refine ⟨h2 rfl rfl, h3 rfl rfl, ?_, h6 rfl rfl⟩
  simpa using h4' rfl

/-! ## Claim C5 — the derived done flag -/

/-- C5: for every list the derived done flag equals
`length > 0 AND countDone == length`, recomputed from current state at read
time — for `TodoList.isDone()` (with `length`/`countDone` counted over the
entity's todos), for every row of the store's `sortedTodoLists` query
(whose aggregates equal the counts over the current `todos` rows), and for
the metadata of a successful `sortedTodoList` query; in particular an empty
list is never done. -/
theorem claim_C5_done_invariant :
    ∀ (l : TodoList) (db : DB) (L : ListRow) (listID : Nat) (thr : Bool)
      (res : TodoListQueryResult),
      (l.isDone = (decide (l.size > 0) && decide (l.countDone = l.size))) ∧
      (l.todos = [] → l.isDone = false) ∧
      (L ∈ db.lists → ∃ row ∈ sortedTodoLists db,
        row.id = L.id ∧
        row.length = (db.todos.filter (fun t => t.todolistId = L.id)).length ∧
        row.countDone = ((db.todos.filter
          (fun t => t.todolistId = L.id)).filter (·.done)).length ∧
        row.done = (decide (row.length > 0) &&
          decide (row.countDone = row.length))) ∧
      (sortedTodoList db listID thr = .ok res →
        res.done = (decide (res.length > 0) &&
          decide (res.countDone = res.length))) := by
  intro l db L listID thr res
  refine ⟨?_, ?_, ?_, ?_⟩
  · unfold TodoList.isDone TodoList.countDone TodoList.size
    rw [all_eq_filter_length]
  · intro h
    unfold TodoList.isDone TodoList.size
    simp [h]
  · intro hL
    refine ⟨⟨L.id, L.title,
      (db.todos.filter (fun t => t.todolistId = L.id)).length,
      ((db.todos.filter (fun t => t.todolistId = L.id)).filter (·.done)).length,
      decide ((db.todos.filter (fun t => t.todolistId = L.id)).length > 0) &&
        decide (((db.todos.filter (fun t => t.todolistId = L.id)).filter
          (·.done)).length =
          (db.todos.filter (fun t => t.todolistId = L.id)).length)⟩,
      ?_, rfl, rfl, rfl, rfl⟩
    unfold sortedTodoLists
    rw [List.mem_insertionSort]
    exact List.mem_map_of_mem _ hL
  · intro hres
    unfold sortedTodoList at hres
    rcases hfind : db.lists.find? (fun r => r.id = listID) with _ | L'
    · rw [hfind] at hres
      rcases thr with _ | _ <;> simp at hres
    · rw [hfind] at hres
      simp only [Outcome.ok.injEq] at hres
      rw [← hres]

/-- C5 witness: a store with a fully-done two-todo list, and the list entity
"Work" with one done todo of two. -/
theorem claim_C5_witness :
    ((⟨1, "Work", [⟨1, "a", true⟩, ⟨2, "b", false⟩]⟩ : TodoList).isDone =
      (decide ((⟨1, "Work", [⟨1, "a", true⟩, ⟨2, "b", false⟩]⟩ :
        TodoList).size > 0) &&
       decide ((⟨1, "Work", [⟨1, "a", true⟩, ⟨2, "b", false⟩]⟩ :
        TodoList).countDone =
        (⟨1, "Work", [⟨1, "a", true⟩, ⟨2, "b", false⟩]⟩ : TodoList).size))) ∧
    (∃ row ∈ sortedTodoLists ⟨[⟨5, "Home", 7⟩],
        [⟨1, "x", true, 5⟩, ⟨2, "y", true, 5⟩]⟩,
      row.id = 5 ∧
      row.length = ((⟨[⟨5, "Home", 7⟩], [⟨1, "x", true, 5⟩, ⟨2, "y", true, 5⟩]⟩ :
        DB).todos.filter (fun t => t.todolistId = 5)).length ∧
      row.countDone = (((⟨[⟨5, "Home", 7⟩], [⟨1, "x", true, 5⟩, ⟨2, "y", true, 5⟩]⟩ :
        DB).todos.filter (fun t => t.todolistId = 5)).filter (·.done)).length ∧
      row.done = (decide (row.length > 0) &&
        decide (row.countDone = row.length))) := by
  have h := claim_C5_done_invariant
    ⟨1, "Work", [⟨1, "a", true⟩, ⟨2, "b", false⟩]⟩
    ⟨[⟨5, "Home", 7⟩], [⟨1, "x", true, 5⟩, ⟨2, "y", true, 5⟩]⟩
    ⟨5, "Home", 7⟩ 5 false
    ⟨5, "Home", 2, 2, true, []⟩
  obtain ⟨h1, -, h3, -⟩ := h
  obtain ⟨row, hrow, hprops⟩ := h3 (by simp)
  exact ⟨h1, ⟨row, hrow, hprops⟩⟩

/-! ## Claim C1 — addList uniqueness per owner -/

/-- C1: the claim says `addList(title)` succeeds when no list of the *same
owner* has the title and yields Conflict exactly on a same-owner duplicate.
On the code as written this is impossible: the statement
`INSERT INTO todolists (title) VALUES ($1)` supplies no `user_id`, while
`schema.sql` declares `user_id integer NOT NULL` without a default — so every
`addList` call raises a not-null constraint violation, which is not a
unique-constraint violation and is re-thrown raw; `addList` never succeeds,
never yields the Conflict kind, and leaves storage unchanged only because it
always fails. -/
theorem claim_C1_addList_never_succeeds :
    ∀ (db : DB) (title : String) (throwOpt : Bool) (newId : Nat),
      addList db title throwOpt newId =
        (db, .thrownRaw (.notNullViolation "user_id")) := by
  intro db title throwOpt newId
  rfl

/-! ## Claim C2 — error translation and the throw option -/

/-- The concrete store state used to exhibit the C2 divergences: one owner
(user 7) with the two lists "Work" (id 1) and "Home" (id 2). -/
def dbC2 : DB := ⟨[⟨1, "Work", 7⟩, ⟨2, "Home", 7⟩], []⟩

/-- C2: the claim says an anticipated Conflict/NotFound is returned as a
sentinel when the throw option is false and thrown typed when it is true,
never leaked as a raw storage error. The code violates the `throw: false`
half twice: `setListTitle` on a colliding title re-throws the *raw*
unique-constraint violation (its `catch` block builds the typed error but
then unconditionally runs `throw err`), and `sortedTodoList` on a nonexistent
id throws a `TypeError` (it dereferences `queryRows[0]` after the non-throwing
`#errInvalidListID` call). With `throw: true` both produce the typed errors
the claim expects. -/
theorem claim_C2_error_translation :
    setListTitle dbC2 1 "Home" false =
      (dbC2, .thrownRaw (.uniqueViolation "todolists_title_user_id_key")) ∧
    setListTitle dbC2 1 "Home" true =
      (dbC2, .thrownStore .nonUniqueListTitle) ∧
    sortedTodoList dbC2 42 false =
      .thrownJS (.typeError "Cannot read properties of undefined") ∧
    sortedTodoList dbC2 42 true = .thrownStore .invalidListID := by
  refine ⟨?_, ?_, ?_, ?_⟩ <;> rfl

/-! ## Claim C3 — multi-statement operations and transactions -/

/-- C3: the claim says every multi-statement operation runs inside a single
transaction begun before its first statement and committed on success. In the
code the guard of `withTransaction` tests the truthiness of the un-awaited
Promise returned by `#isInTransaction()` — always truthy — so `withTransaction`
returns the callback unchanged and *never* issues `BEGIN`, `COMMIT` or
`ROLLBACK`: `toggleDone`'s three statements (and likewise `findTodo`'s and
`removeTodo`'s) run outside any store-opened transaction. -/
theorem claim_C3_no_transaction :
    ∀ (cb : List TxCmd) (callbackFails : Bool),
      withTransaction cb callbackFails = cb ∧
      (toggleDoneTrace callbackFails).count TxCmd.beginTx = 0 ∧
      (toggleDoneTrace callbackFails).count TxCmd.commitTx = 0 ∧
      (toggleDoneTrace callbackFails).count TxCmd.rollbackTx = 0 ∧
      2 ≤ (toggleDoneTrace callbackFails).length := by
  intro cb callbackFails
  cases callbackFails <;> exact ⟨rfl, rfl, rfl, rfl, by decide⟩

/-! ## Claim C7 — TodoLists.sort -/

/-- C7: `TodoLists.sort()` sorts the collection with `TodoList.compare` (the
result is a permutation of the input, ordered by the comparator), the sort is
stable (a pair already in comparator order keeps its relative order), the
updated collection is returned (modelled by the returned value), and the sort
is idempotent: a sorted collection is returned unchanged, and repeated calls
return identical output. -/
theorem claim_C7_sort_idempotent :
    ∀ (c : TodoLists),
      c.sort.lists.Perm c.lists ∧
      List.Sorted listLE c.sort.lists ∧
      (∀ a b : TodoList, [a, b].Sublist c.lists → listLE a b →
        [a, b].Sublist c.sort.lists) ∧
      (List.Sorted listLE c.lists → c.sort = c) ∧
      c.sort.sort = c.sort := by
  intro c
  refine ⟨List.perm_insertionSort _ _, List.sorted_insertionSort _ _,
    ?_, ?_, ?_⟩
  · intro a b hsub hle
    exact List.pair_sublist_insertionSort hle hsub
  · intro hs
    unfold TodoLists.sort
    rw [hs.insertionSort_eq]
  · unfold TodoLists.sort
    rw [(List.sorted_insertionSort listLE c.lists).insertionSort_eq]

/-- C7 witness: an already-sorted two-list collection (the not-done list "b"
before the done list "a") is returned unchanged, and its in-order pair is
still a sublist after sorting. -/
theorem claim_C7_witness :
    (⟨[⟨2, "b", []⟩, ⟨1, "a", [⟨1, "x", true⟩]⟩]⟩ : TodoLists).sort =
      ⟨[⟨2, "b", []⟩, ⟨1, "a", [⟨1, "x", true⟩]⟩]⟩ ∧
    [(⟨2, "b", []⟩ : TodoList), ⟨1, "a", [⟨1, "x", true⟩]⟩].Sublist
      ((⟨[⟨2, "b", []⟩, ⟨1, "a", [⟨1, "x", true⟩]⟩]⟩ : TodoLists).sort).lists := by
  obtain ⟨-, -, hstab, hid, -⟩ := claim_C7_sort_idempotent
    ⟨[⟨2, "b", []⟩, ⟨1, "a", [⟨1, "x", true⟩]⟩]⟩
  refine ⟨hid ?_, hstab _ _ ?_ ?_⟩
  · decide
  · decide
  · decide

/-! ## Claim C8 — toggleDone round-trip -/

theorem toggleRow_id (todoID listID : Nat) (t : TodoRow) :
    (toggleRow todoID listID t).id = t.id := by
  rcases t with ⟨i, s, d, li⟩
  unfold toggleRow
  split <;> rfl

theorem toggleRow_invol (todoID listID : Nat) (t : TodoRow) :
    toggleRow todoID listID (toggleRow todoID listID t) = t := by
  rcases t with ⟨i, s, d, li⟩
  unfold toggleRow
  by_cases h : i = todoID ∧ li = listID
  · simp [h]
  · simp [h]

/-- With unique todo ids, the post-update `RETURNING` rows of the toggle
statement are exactly the toggled image of the matched row. -/
theorem filter_toggled (ts : List TodoRow)
    (hp : ts.Pairwise (fun a b => a.id ≠ b.id)) (t : TodoRow) (ht : t ∈ ts)
    (lid : Nat) (hl : t.todolistId = lid) :
    (ts.map (toggleRow t.id lid)).filter
      (fun x => x.id = t.id ∧ x.todolistId = lid) =
      [{ t with done := !t.done }] := by
  induction ts with
  | nil => cases ht
  | cons x xs ih =>
    rw [List.pairwise_cons] at hp
    rcases List.mem_cons.mp ht with rfl | hmem
    · have hguard : toggleRow t.id lid t = { t with done := !t.done } := by
        unfold toggleRow
        rw [if_pos ⟨rfl, hl⟩]
      rw [List.map_cons, hguard, List.filter_cons]
      have hpred : (({ t with done := !t.done } : TodoRow).id = t.id ∧
          ({ t with done := !t.done } : TodoRow).todolistId = lid) := ⟨rfl, hl⟩
      rw [if_pos (by simpa using hpred)]
      have hrest : (xs.map (toggleRow t.id lid)).filter
          (fun x => x.id = t.id ∧ x.todolistId = lid) = [] := by
        rw [List.filter_eq_nil_iff]
        intro a ha
        obtain ⟨y, hy, rfl⟩ := List.mem_map.mp ha
        have hne : y.id ≠ t.id := fun he => (hp.1 y hy) he.symm
        simp [toggleRow_id, hne]
      rw [hrest]
    · have hxid : x.id ≠ t.id := hp.1 t hmem
      have hx : toggleRow t.id lid x = x := by
        unfold toggleRow
        rw [if_neg]
        rintro ⟨h1, -⟩
        exact hxid h1
      rw [List.map_cons, hx, List.filter_cons]
      rw [if_neg (by simp [hxid])]
      exact ih hp.2 hmem

/-- With unique list ids, `find?` on a present list returns that list. -/
theorem find_listRow (ls : List ListRow)
    (hp : ls.Pairwise (fun a b => a.id ≠ b.id)) (l : ListRow) (hl : l ∈ ls) :
    ls.find? (fun r => r.id = l.id) = some l := by
  induction ls with
  | nil => cases hl
  | cons x xs ih =>
    rw [List.pairwise_cons] at hp
    rcases List.mem_cons.mp hl with rfl | hmem
    · rw [List.find?_cons_of_pos _ (by simp)]
    · rw [List.find?_cons_of_neg _ (by simp [hp.1 l hmem]),
        ih hp.2 hmem]

/-- Joining a single returned row with its (present, unique) list. -/
theorem joinRows_single (ls : List ListRow) (ts : List TodoRow)
    (hp : ls.Pairwise (fun a b => a.id ≠ b.id)) (l : ListRow) (hl : l ∈ ls)
    (t' : TodoRow) (h : t'.todolistId = l.id) :
    joinRows ⟨ls, ts⟩ [t'] =
      [⟨t'.id, t'.title, t'.done, t'.todolistId, l.title⟩] := by
  unfold joinRows
  rw [List.filterMap_cons]
  have : (⟨ls, ts⟩ : DB).lists.find? (fun L => L.id = t'.todolistId) =
      some l := by
    dsimp only
    rw [h]
    exact find_listRow ls hp l hl
  rw [this]
  rfl

/-- C8: for every todo `t` in list `l`, one `toggleDone(t.id, l.id)` call
returns the todo in its post-toggle state (done flag negated, all other
fields unchanged, joined with the list title) and flips exactly that row;
a second call returns the todo with its original done flag and restores the
database to its original state. -/
theorem claim_C8_toggle_roundtrip :
    ∀ (db : DB) (t : TodoRow) (l : ListRow),
      db.wf → l ∈ db.lists → t ∈ db.todos → t.todolistId = l.id →
      ∃ db' : DB,
        toggleDone db t.id l.id false =
          (db', .ok (some ⟨t.id, t.title, !t.done, l.id, l.title⟩)) ∧
        db'.lists = db.lists ∧
        db'.todos = db.todos.map (toggleRow t.id l.id) ∧
        toggleDone db' t.id l.id false =
          (db, .ok (some ⟨t.id, t.title, t.done, l.id, l.title⟩)) := by
  intro db t l hwf hl ht hll
  obtain ⟨hpl, hpt, -⟩ := hwf
  rcases db with ⟨ls, ts⟩
  rcases t with ⟨tid, ttitle, tdone, tlid⟩
  rcases l with ⟨lid, ltitle, luid⟩
  dsimp only at hpl hpt hl ht hll ⊢
  subst hll
  refine ⟨⟨ls, ts.map (toggleRow tid tlid)⟩, ?_, rfl, rfl, ?_⟩
  · have hle : listExists ⟨ls, ts⟩ tlid = true := by
      unfold listExists
      rw [List.any_eq_true]
      exact ⟨⟨tlid, ltitle, luid⟩, hl, by simp⟩
    have hte : todoExists ⟨ls, ts⟩ tid = true := by
      unfold todoExists
      rw [List.any_eq_true]
      exact ⟨⟨tid, ttitle, tdone, tlid⟩, ht, by simp⟩
    unfold toggleDone
    rw [if_neg (not_not_intro hle), if_neg (not_not_intro hte)]
    dsimp only
    have h1 : toggledRows ⟨ls, ts.map (toggleRow tid tlid)⟩ tid tlid =
        [⟨tid, ttitle, !tdone, tlid⟩] := by
      have := filter_toggled ts hpt ⟨tid, ttitle, tdone, tlid⟩ ht tlid rfl
      exact this
    rw [h1]
    have h2 : joinRows ⟨ls, ts.map (toggleRow tid tlid)⟩
        [⟨tid, ttitle, !tdone, tlid⟩] =
        [⟨tid, ttitle, !tdone, tlid, ltitle⟩] := by
      exact joinRows_single ls _ hpl ⟨tlid, ltitle, luid⟩ hl _ rfl
    rw [h2]
    rfl
  · have hpt' : (ts.map (toggleRow tid tlid)).Pairwise
        (fun a b => a.id ≠ b.id) := by
      rw [List.pairwise_map]
      exact hpt.imp (fun hab => by
        rw [toggleRow_id, toggleRow_id]
        exact hab)
    have hmem' : (⟨tid, ttitle, !tdone, tlid⟩ : TodoRow) ∈
        ts.map (toggleRow tid tlid) := by
      refine List.mem_map.mpr ⟨⟨tid, ttitle, tdone, tlid⟩, ht, ?_⟩
      unfold toggleRow
      rw [if_pos ⟨rfl, rfl⟩]
    have hle : listExists ⟨ls, ts.map (toggleRow tid tlid)⟩ tlid = true := by
      unfold listExists
      rw [List.any_eq_true]
      exact ⟨⟨tlid, ltitle, luid⟩, hl, by simp⟩
    have hte : todoExists ⟨ls, ts.map (toggleRow tid tlid)⟩ tid = true := by
      unfold todoExists
      rw [List.any_eq_true]
      exact ⟨⟨tid, ttitle, !tdone, tlid⟩, hmem', by simp⟩
    unfold toggleDone
    rw [if_neg (not_not_intro hle), if_neg (not_not_intro hte)]
    dsimp only
    have h1 : toggledRows ⟨ls, (ts.map (toggleRow tid tlid)).map
        (toggleRow tid tlid)⟩ tid tlid = [⟨tid, ttitle, !!tdone, tlid⟩] := by
      have := filter_toggled (ts.map (toggleRow tid tlid)) hpt'
        ⟨tid, ttitle, !tdone, tlid⟩ hmem' tlid rfl
      exact this
    rw [h1]
    have h2 : joinRows ⟨ls, (ts.map (toggleRow tid tlid)).map
        (toggleRow tid tlid)⟩ [⟨tid, ttitle, !!tdone, tlid⟩] =
        [⟨tid, ttitle, !!tdone, tlid, ltitle⟩] := by
      exact joinRows_single ls _ hpl ⟨tlid, ltitle, luid⟩ hl _ rfl
    rw [h2]
    have htwice : ∀ x, (toggleRow tid tlid ∘ toggleRow tid tlid) x = x :=
      fun x => toggleRow_invol tid tlid x
    rw [List.map_map, List.map_id'' htwice]
    simp [Bool.not_not]

/-- C8 witness: in a one-list, one-todo store, toggling todo 1 in list 1
twice returns it to not-done and restores the store. -/
theorem claim_C8_witness :
    ∃ db' : DB,
      toggleDone ⟨[⟨1, "Work", 7⟩], [⟨1, "Get Coffee", false, 1⟩]⟩ 1 1 false =
        (db', .ok (some ⟨1, "Get Coffee", true, 1, "Work"⟩)) ∧
      db'.lists = [⟨1, "Work", 7⟩] ∧
      db'.todos = [⟨1, "Get Coffee", false, 1⟩].map (toggleRow 1 1) ∧
      toggleDone db' 1 1 false =
        (⟨[⟨1, "Work", 7⟩], [⟨1, "Get Coffee", false, 1⟩]⟩,
          .ok (some ⟨1, "Get Coffee", false, 1, "Work"⟩)) := by
  have h := claim_C8_toggle_roundtrip
    ⟨[⟨1, "Work", 7⟩], [⟨1, "Get Coffee", false, 1⟩]⟩
    ⟨1, "Get Coffee", false, 1⟩ ⟨1, "Work", 7⟩
    (by refine ⟨?_, ?_, ?_⟩ <;> decide) (by decide) (by decide) rfl
  exact h

/-! ## Claim C4 — removeList -/

/-- The head of the `(done, lower(title))`-sorted rows is done exactly when
all rows are done. -/
theorem insertionSort_head_done (ts : List TodoRow) (hne : ts ≠ []) :
    (ts.insertionSort sqlTodoRowLE).head?.map (·.done) =
      some (ts.all (·.done)) := by
  rcases hs : ts.insertionSort sqlTodoRowLE with _ | ⟨a, rest⟩
  · have hperm := List.perm_insertionSort sqlTodoRowLE ts
    rw [hs] at hperm
    exact absurd hperm.symm.eq_nil hne
  · have hperm := List.perm_insertionSort sqlTodoRowLE ts
    rw [hs] at hperm
    simp only [List.head?_cons, Option.map_some]
    by_cases hall : ts.all (·.done) = true
    · have ha : a ∈ ts := hperm.mem_iff.mp (List.mem_cons_self a rest)
      rw [hall]
      have := List.all_eq_true.mp hall a ha
      simpa using this
    · have hall' : ts.all (·.done) = false := by simpa using hall
      rw [hall']
      obtain ⟨x, hx, hxd⟩ : ∃ x ∈ ts, x.done = false := by
        rw [List.all_eq_true] at hall
        push_neg at hall
        obtain ⟨x, hx, hxd⟩ := hall
        exact ⟨x, hx, by simpa using hxd⟩
      have hxs : x ∈ a :: rest := hperm.symm.mem_iff.mp hx
      rcases List.mem_cons.mp hxs with rfl | hxrest
      · simp [hxd]
      · have hsorted := List.sorted_insertionSort sqlTodoRowLE ts
        rw [hs] at hsorted
        have hrel := List.rel_of_sorted_cons hsorted x hxrest
        unfold sqlTodoRowLE doneTitleLE at hrel
        rcases had : a.done with _ | _
        · simp [had]
        · exfalso
          rw [had, hxd] at hrel
          rcases hrel with ⟨h1, -⟩ | ⟨h1, -⟩ <;> simp at h1

/-- C4 counterexample: for a list with zero todos, the snapshot returned by
`removeList` carries `done = null` (the `rt.done` column of the single
right-join row), not the spec's derived done value `false` of the empty
list — the `done` computed in the `list_metadata` CTE is never selected. -/
theorem claim_C4_counterexample :
    (removeList ⟨[⟨1, "Work", 7⟩], []⟩ 1 false).2 =
      .ok (some ⟨1, "Work", 0, 0, none, []⟩) ∧
    ((⟨1, "Work", 0, 0, none, []⟩ : RemovedListSnapshot).done ≠
      some (decide ((0 : Nat) > 0 ∧ (0 : Nat) = (0 : Nat)))) := by
  exact ⟨rfl, by simp⟩

/-- C4 (amended): for every list L with n todos, `removeList(L.id)` deletes
exactly L and its n todos in one state transition and leaves every other
list and todo unchanged; the returned snapshot's `length`, `countDone` and
`todos` are computed from the just-deleted rows, and its `done` field equals
`countDone == length` for a nonempty list but is `null` (not `false`) when
the list had no todos; a subsequent lookup of L.id (with the throw option)
yields the typed NotFound error. -/
theorem claim_C4_removeList :
    ∀ (db : DB) (L : ListRow),
      db.wf → L ∈ db.lists →
      ∃ (db' : DB) (snap : RemovedListSnapshot),
        removeList db L.id false = (db', .ok (some snap)) ∧
        db'.lists = db.lists.filter (fun r => r.id ≠ L.id) ∧
        db'.todos = db.todos.filter (fun t => t.todolistId ≠ L.id) ∧
        (∀ r ∈ db.lists, r.id ≠ L.id → r ∈ db'.lists) ∧
        (∀ u ∈ db.todos, u.todolistId ≠ L.id → u ∈ db'.todos) ∧
        (∀ r ∈ db'.lists, r ∈ db.lists) ∧
        (∀ u ∈ db'.todos, u ∈ db.todos ∧ u.todolistId ≠ L.id) ∧
        L ∉ db'.lists ∧
        snap.id = L.id ∧
        snap.title = L.title ∧
        snap.length = (db.todos.filter (fun t => t.todolistId = L.id)).length ∧
        snap.countDone = ((db.todos.filter
          (fun t => t.todolistId = L.id)).filter (·.done)).length ∧
        (snap.length ≠ 0 →
          snap.done = some (decide (snap.countDone = snap.length))) ∧
        (snap.length = 0 → snap.done = none) ∧
        snap.todos.Perm ((db.todos.filter (fun t => t.todolistId = L.id)).map
          (fun t => (⟨t.id, t.title, t.done, L.id, L.title, snap.length,
            snap.countDone⟩ : RemovedTodoRow))) ∧
        sortedTodoList db' L.id true = .thrownStore .invalidListID := by
  intro db L hwf hL
  obtain ⟨hpl, -, -⟩ := hwf
  rcases db with ⟨ls, ts⟩
  dsimp only at hpl hL ⊢
  have hfind : ls.find? (fun r => r.id = L.id) = some L :=
    find_listRow ls hpl L hL
  refine ⟨⟨ls.filter (fun r => r.id ≠ L.id),
    ts.filter (fun t => t.todolistId ≠ L.id)⟩,
    ⟨L.id, L.title, (ts.filter (fun t => t.todolistId = L.id)).length,
      ((ts.filter (fun t => t.todolistId = L.id)).filter (·.done)).length,
      ((ts.filter (fun t => t.todolistId = L.id)).insertionSort
        sqlTodoRowLE).head?.map (·.done),
      if (ts.filter (fun t => t.todolistId = L.id)).length = 0 then []
      else ((ts.filter (fun t => t.todolistId = L.id)).insertionSort
        sqlTodoRowLE).map (fun t =>
        (⟨t.id, t.title, t.done, L.id, L.title,
          (ts.filter (fun u => u.todolistId = L.id)).length,
          ((ts.filter (fun u => u.todolistId = L.id)).filter
            (·.done)).length⟩ : RemovedTodoRow))⟩,
    ?_, rfl, rfl, ?_, ?_, ?_, ?_, ?_, rfl, rfl, rfl, rfl, ?_, ?_, ?_, ?_⟩
  · unfold removeList
    rw [hfind]
  · intro r hr hne
    exact List.mem_filter.mpr ⟨hr, by simpa using hne⟩
  · intro u hu hne
    exact List.mem_filter.mpr ⟨hu, by simpa using hne⟩
  · intro r hr
    exact (List.mem_filter.mp hr).1
  · intro u hu
    obtain ⟨h1, h2⟩ := List.mem_filter.mp hu
    exact ⟨h1, by simpa using h2⟩
  · intro hmem
    have := (List.mem_filter.mp hmem).2
    simp at this
  · intro hne
    dsimp only
    have hne' : ts.filter (fun t => t.todolistId = L.id) ≠ [] := by
      intro hnil
      rw [hnil] at hne
      exact hne rfl
    rw [insertionSort_head_done _ hne', all_eq_filter_length]
  · intro h0
    dsimp only
    rw [List.length_eq_zero] at h0
    rw [h0]
    rfl
  · dsimp only
    by_cases h0 : (ts.filter (fun t => t.todolistId = L.id)).length = 0
    · rw [if_pos h0]
      rw [List.length_eq_zero] at h0
      rw [h0]
      exact List.Perm.refl _
    · rw [if_neg h0]
      exact (List.perm_insertionSort sqlTodoRowLE _).map _
  · unfold sortedTodoList
    have hnone : (ls.filter (fun r => r.id ≠ L.id)).find?
        (fun r => r.id = L.id) = none := by
      rw [List.find?_eq_none]
      intro x hx
      have := (List.mem_filter.mp hx).2
      simpa using this
    dsimp only
    rw [hnone]
    rfl

/-- The concrete store used for the C4 witness: list "Work" (id 1) holds
three todos, one of them done; list "Home" (id 2) holds one unrelated todo. -/
def dbC4w : DB :=
  ⟨[⟨1, "Work", 7⟩, ⟨2, "Home", 7⟩],
   [⟨1, "alpha", true, 1⟩, ⟨2, "beta", false, 1⟩, ⟨3, "gamma", false, 1⟩,
    ⟨4, "zeta", true, 2⟩]⟩

/-- C4 witness: removing list 1 of `dbC4w` yields a snapshot with
`length = 3`, `countDone = 1`, `done = true/false per the deleted rows`, and
the subsequent lookup of id 1 yields the typed NotFound error; the unrelated
list and todo survive. -/
theorem claim_C4_witness :
    ∃ (db' : DB) (snap : RemovedListSnapshot),
      removeList dbC4w 1 false = (db', .ok (some snap)) ∧
      snap.length = 3 ∧
      snap.countDone = 1 ∧
      snap.done = some false ∧
      (⟨4, "zeta", true, 2⟩ : TodoRow) ∈ db'.todos ∧
      sortedTodoList db' 1 true = .thrownStore .invalidListID := by
  obtain ⟨db', snap, h1, -, -, -, h5, -, -, -, -, -, hlen, hcd, hdone, -, -,
      hlook⟩ :=
    claim_C4_removeList dbC4w ⟨1, "Work", 7⟩
      (by refine ⟨?_, ?_, ?_⟩ <;> decide) (by decide)
  have hlen3 : snap.length = 3 := by
    rw [hlen]
    decide
  have hcd1 : snap.countDone = 1 := by
    rw [hcd]
    decide
  refine ⟨db', snap, h1, hlen3, hcd1, ?_, ?_, hlook⟩
  · rw [hdone (by rw [hlen3]; decide), hcd1, hlen3]
    decide
  · exact h5 ⟨4, "zeta", true, 2⟩ (by decide) (by decide)

end TodoApp
